import Mathlib

/-!
Shallow embedding of `src/microplate/microplate.py` (class `Microplate`).

A pandas `DataFrame` row of the plate table becomes a `Well` record; the
frame itself is the ordered `List Well`.  `__post_init__`, `add_samples`
and `print_matrix` are translated function by function.  Raising a Python
`ValueError` is modelled by an error message; `print` output is collected
in a list of lines.
-/

namespace Microplate

/-- One row of the plate dataframe: the columns created in
`__post_init__` (`plate_name`, `plate_id`, `well_index`, `row`, `column`,
`sample_id`).  `sample_id` is `none` while unset (Python `None`/`NaN`). -/
structure Well where
  plate_name : Option String
  plate_id : Option String
  well_index : String
  row : String
  column : Nat
  sample_id : Option String
deriving DecidableEq

/-- Python `chr(65 + row)`: the single-character row label. -/
def rowLetter (r : Nat) : String :=
  String.mk [Char.ofNat (65 + r)]

/-- The well-record grid built by the loops of `__post_init__`:
`for col in range(1, cols + 1): for row in range(rows): ...` with
`well_index = f"{row_letter}{col}"`.  Python `str(col)` is `Nat.repr`. -/
def mkWells (rows cols : Nat) (plate_name plate_id : Option String) : List Well :=
  (List.range cols).flatMap (fun c =>
    (List.range rows).map (fun r =>
      { plate_name := plate_name
        plate_id := plate_id
        well_index := rowLetter r ++ Nat.repr (c + 1)
        row := rowLetter r
        column := c + 1
        sample_id := Option.none }))

/-- A pandas `DataFrame` passed to `add_samples`: its column names, and the
`(well_index, sample_id)` data of the two columns the merge uses
(`sample_id` entries may be null). -/
structure DataFrameSrc where
  columns : List String
  records : List (String × Option String)
deriving DecidableEq

/-- The runtime type of the `sample_ids` argument of `add_samples`:
Python `None`, a `dict`, a `DataFrame`, or any other object. -/
inductive SampleSource where
  | pyNone : SampleSource
  | dict (entries : List (String × String)) : SampleSource
  | dataframe (t : DataFrameSrc) : SampleSource
  | other : SampleSource

/-- The `dict` branch of `add_samples`:
`df.loc[mask, 'sample_id'] = df.loc[mask, 'well_index'].map(sample_ids)`
where `mask = df['well_index'].isin(sample_ids.keys())` — rows whose
`well_index` is a key get the mapped value, all other rows are untouched. -/
def applyDict (df : List Well) (m : List (String × String)) : List Well :=
  df.map (fun w =>
    match m.lookup w.well_index with
    | some v => { w with sample_id := some v }
    | Option.none => w)

/-- After `pd.merge(..., how='left', suffixes=('', '_new'))`, the update
`df['sample_id'] = df['sample_id_new'].fillna(df['sample_id'])`: a non-null
merged value overwrites, a null one keeps the old value. -/
def fillMerged (w : Well) (p : String × Option String) : Well :=
  match p.2 with
  | some v => { w with sample_id := some v }
  | Option.none => w

/-- The `DataFrame` branch of `add_samples`: a pandas left merge on
`well_index`.  Each left row is replicated once per matching right row
(pandas semantics); a row with no match keeps its `sample_id`
(`sample_id_new` is `NaN` and `fillna` restores the old value). -/
def mergeLeft (df : List Well) (records : List (String × Option String)) : List Well :=
  df.flatMap (fun w =>
    match records.filter (fun p => p.1 == w.well_index) with
    | [] => [w]
    | ms => ms.map (fillMerged w))

/-- Outcome of a call to `add_samples`: the well table afterwards, the
lines printed, and the message of the raised `ValueError` if any. -/
structure AddResult where
  df : List Well
  printed : List String
  error : Option String
deriving DecidableEq

/-- `Microplate.add_samples`, branch for branch.  Note the final `else`
branch only prints a warning; it raises nothing. -/
def add_samples (df : List Well) (sample_ids : SampleSource) : AddResult :=
  match sample_ids with
  | SampleSource.pyNone =>
      { df := df, printed := ["No samples provided."], error := Option.none }
  | SampleSource.dict m =>
      { df := applyDict df m, printed := [], error := Option.none }
  | SampleSource.dataframe t =>
      if "well_index" ∉ t.columns ∨ "sample_id" ∉ t.columns then
        { df := df, printed := [],
          error := some "DataFrame must have 'well_index' and 'sample_id' columns." }
      else
        { df := mergeLeft df t.records, printed := [], error := Option.none }
  | SampleSource.other =>
      { df := df, printed := ["Invalid input type. Expected a dictionary or DataFrame."],
        error := Option.none }

/-- The consistency checks closing `__post_init__`: `plate_name` and
`plate_id` must each take at most one distinct value across the rows
(`len(df[col].unique()) > 1` raises a `ValueError`).  The number of
distinct values of a column is the length of its deduplicated value
list. -/
def validate_consistency (df : List Well) : Except String (List Well) :=
  if 1 < ((df.map Well.plate_name).dedup).length then
    Except.error "Plate name must be consistent across all wells"
  else if 1 < ((df.map Well.plate_id).dedup).length then
    Except.error "Plate ID must be consistent across all wells"
  else Except.ok df

/-- `Microplate.__post_init__`: build the grid, delegate to `add_samples`
(whose raised error, if any, propagates), then run the consistency
checks. -/
def post_init (rows cols : Nat) (plate_name plate_id : Option String)
    (sample_ids : SampleSource) : Except String (List Well) :=
  match (add_samples (mkWells rows cols plate_name plate_id) sample_ids).error with
  | some e => Except.error e
  | Option.none =>
      validate_consistency (add_samples (mkWells rows cols plate_name plate_id) sample_ids).df

/-- Python `f"{x}"` on an optional string: `None` prints as "None". -/
def pyStrOpt : Option String → String
  | some s => s
  | Option.none => "None"

/-- Python `f"{s:^w}"`: centre `s` in a field of minimum width `w`, the
extra fill character (if any) going to the right.  A string of length
`≥ w` is returned unchanged. -/
def pyCenter (s : String) (w : Nat) : String :=
  if w ≤ s.length then s
  else
    String.mk (List.replicate ((w - s.length) / 2) ' ') ++ s ++
      String.mk (List.replicate (w - s.length - (w - s.length) / 2) ' ')

/-- One cell of a data line:
`f"{str(x):^10}" if x is not None else "    -     "`. -/
def formatCell : Option String → String
  | some s => pyCenter s 10
  | Option.none => "    -     "

/-- Python `sep.join(parts)`. -/
def joinSep (sep : String) : List String → String
  | [] => ""
  | [s] => s
  | s :: rest => s ++ sep ++ joinSep sep rest

/-- Row `i` of `df['sample_id'].values.reshape(rows, cols)`: numpy reshapes
the flat sequence in C (row-major) order, so display row `i` holds flat
positions `i*cols .. i*cols + cols - 1`. -/
def matrixRow (flat : List (Option String)) (cols i : Nat) : List (Option String) :=
  (flat.drop (i * cols)).take cols

/-- `Microplate.print_matrix` as the list of printed lines: two metadata
lines, the column-header line, then one line per display row. -/
def print_matrix (rows cols : Nat) (plate_name plate_id : Option String)
    (df : List Well) : List String :=
  let flat := df.map Well.sample_id
  ("Plate Name: " ++ pyStrOpt plate_name) ::
    ("Plate ID: " ++ pyStrOpt plate_id) ::
      ("   " ++ joinSep " " ((List.range cols).map (fun i => pyCenter (Nat.repr (i + 1)) 10))) ::
        (List.range rows).map (fun i =>
          rowLetter i ++ "  " ++ joinSep " " ((matrixRow flat cols i).map formatCell))

end Microplate

namespace Microplate

/-- C8: calling `add_samples` with an absent (`None`) source raises no
error and leaves every well record — in particular every `sample_id` —
exactly as it was; only the line "No samples provided." is printed. -/
theorem C8_absent_source_noop (df : List Well) :
    (add_samples df SampleSource.pyNone).error = Option.none ∧
    (add_samples df SampleSource.pyNone).df = df ∧
    (add_samples df SampleSource.pyNone).printed = ["No samples provided."] :=
  ⟨rfl, rfl, rfl⟩

/-- C7 counterexample: on a source that is neither a mapping, nor a
dataframe, nor absent, `add_samples` raises nothing (the claim says it
fails with `InvalidInputError`); it merely prints a warning and leaves
the wells unchanged. -/
theorem C7_counterexample :
    (add_samples (mkWells 1 1 Option.none Option.none) SampleSource.other).error =
      Option.none ∧
    (add_samples (mkWells 1 1 Option.none Option.none) SampleSource.other).printed =
      ["Invalid input type. Expected a dictionary or DataFrame."] ∧
    (add_samples (mkWells 1 1 Option.none Option.none) SampleSource.other).df =
      mkWells 1 1 Option.none Option.none := ⟨rfl, rfl, rfl⟩

/-- C7 amended: for every plate, a source value that is neither a
recognized mapping, nor a recognized tabular source, nor absent makes
`add_samples` print the warning "Invalid input type. Expected a
dictionary or DataFrame." and return with the well records unchanged and
no error raised. -/
theorem C7_invalid_input_warns (df : List Well) :
    add_samples df SampleSource.other =
      { df := df,
        printed := ["Invalid input type. Expected a dictionary or DataFrame."],
        error := Option.none } := rfl

/-- C6: a tabular source lacking the `well_index` column or lacking the
`sample_id` column makes `add_samples` raise the `ValueError`
"DataFrame must have 'well_index' and 'sample_id' columns." with the
plate's well records left completely unmodified. -/
theorem C6_missing_columns (df : List Well) (t : DataFrameSrc)
    (h : "well_index" ∉ t.columns ∨ "sample_id" ∉ t.columns) :
    (add_samples df (SampleSource.dataframe t)).error =
      some "DataFrame must have 'well_index' and 'sample_id' columns." ∧
    (add_samples df (SampleSource.dataframe t)).df = df ∧
    (add_samples df (SampleSource.dataframe t)).printed = [] := by
  simp only [add_samples]
  rw [if_pos h]
  exact ⟨rfl, rfl, rfl⟩

/-- C6 witness: the theorem applied to a one-well plate and a dataframe
whose only column is `well_index`. -/
theorem C6_missing_columns_witness :
    (("well_index" ∉ (DataFrameSrc.mk ["well_index"] []).columns ∨
        "sample_id" ∉ (DataFrameSrc.mk ["well_index"] []).columns) ∧
      (add_samples (mkWells 1 1 Option.none Option.none)
          (SampleSource.dataframe (DataFrameSrc.mk ["well_index"] []))).error =
        some "DataFrame must have 'well_index' and 'sample_id' columns." ∧
      (add_samples (mkWells 1 1 Option.none Option.none)
          (SampleSource.dataframe (DataFrameSrc.mk ["well_index"] []))).df =
        mkWells 1 1 Option.none Option.none ∧
      (add_samples (mkWells 1 1 Option.none Option.none)
          (SampleSource.dataframe (DataFrameSrc.mk ["well_index"] []))).printed = []) :=
  ⟨Or.inr (by decide),
    C6_missing_columns (mkWells 1 1 Option.none Option.none)
      (DataFrameSrc.mk ["well_index"] []) (Or.inr (by decide))⟩

/-- C3: with a mapping source, `add_samples` sets the `sample_id` of each
well whose `well_index` is a key of the mapping to the mapped value and
leaves every other well untouched (never cleared); consequently two
successive calls with `{"A1": "S1"}` and then `{"A1": "S2"}` leave a well
indexed "A1" with `sample_id = "S2"`. -/
theorem C3_assign_mapping (df : List Well) (m : List (String × String))
    (i : Nat) (w : Well) (hw : df[i]? = some w) :
    (∀ v, m.lookup w.well_index = some v →
      ((add_samples df (SampleSource.dict m)).df)[i]? =
        some { w with sample_id := some v }) ∧
    (m.lookup w.well_index = Option.none →
      ((add_samples df (SampleSource.dict m)).df)[i]? = some w) ∧
    ((add_samples (add_samples df (SampleSource.dict [("A1", "S1")])).df
        (SampleSource.dict [("A1", "S2")])).df)[i]? =
      some (if w.well_index = "A1" then { w with sample_id := some "S2" } else w) := by
  refine ⟨?_, ?_, ?_⟩
  · intro v hv
    simp [add_samples, applyDict, List.getElem?_map, hw, hv]
  · intro hv
    simp [add_samples, applyDict, List.getElem?_map, hw, hv]
  · simp only [add_samples, applyDict, List.map_map, List.getElem?_map, hw,
      Option.map_some']
    by_cases hA : w.well_index = "A1"
    · rw [if_pos hA]
      simp [List.lookup, Function.comp, hA]
    · rw [if_neg hA]
      have hb : (w.well_index == "A1") = false := beq_eq_false_iff_ne.mpr hA
      simp [List.lookup, Function.comp, hb]

/-- C3 witness: the theorem applied to the one-well plate `A1` and the
mapping `{"A1": "S9"}`. -/
theorem C3_assign_mapping_witness :
    ((mkWells 1 1 Option.none Option.none)[0]? =
      some ⟨Option.none, Option.none, "A1", "A", 1, Option.none⟩) ∧
    ((∀ v, [("A1", "S9")].lookup
        (Well.well_index ⟨Option.none, Option.none, "A1", "A", 1, Option.none⟩) = some v →
      ((add_samples (mkWells 1 1 Option.none Option.none)
          (SampleSource.dict [("A1", "S9")])).df)[0]? =
        some { (⟨Option.none, Option.none, "A1", "A", 1, Option.none⟩ : Well) with
                sample_id := some v }) ∧
    ([("A1", "S9")].lookup
        (Well.well_index ⟨Option.none, Option.none, "A1", "A", 1, Option.none⟩) =
          Option.none →
      ((add_samples (mkWells 1 1 Option.none Option.none)
          (SampleSource.dict [("A1", "S9")])).df)[0]? =
        some ⟨Option.none, Option.none, "A1", "A", 1, Option.none⟩) ∧
    ((add_samples (add_samples (mkWells 1 1 Option.none Option.none)
        (SampleSource.dict [("A1", "S1")])).df
        (SampleSource.dict [("A1", "S2")])).df)[0]? =
      some (if Well.well_index ⟨Option.none, Option.none, "A1", "A", 1, Option.none⟩ = "A1"
            then { (⟨Option.none, Option.none, "A1", "A", 1, Option.none⟩ : Well) with
                    sample_id := some "S2" }
            else ⟨Option.none, Option.none, "A1", "A", 1, Option.none⟩)) :=
  ⟨by decide,
    C3_assign_mapping (mkWells 1 1 Option.none Option.none) [("A1", "S9")] 0
      ⟨Option.none, Option.none, "A1", "A", 1, Option.none⟩ (by decide)⟩

end Microplate

namespace Microplate

/-- Filtering an association list with duplicate-free keys for one key
returns exactly the row `find?` locates, if any. -/
theorem filter_key_eq_find (records : List (String × Option String)) (k : String)
    (hnd : (records.map Prod.fst).Nodup) :
    records.filter (fun p => p.1 == k) =
      match records.find? (fun p => p.1 == k) with
      | some p => [p]
      | Option.none => [] := by
  induction records with
  | nil => rfl
  | cons a rs ih =>
      rw [List.map_cons, List.nodup_cons] at hnd
      by_cases hk : a.1 = k
      · have hb : (a.1 == k) = true := beq_iff_eq.mpr hk
        have hrest : rs.filter (fun p => p.1 == k) = [] := by
          rw [List.filter_eq_nil_iff]
          intro p hp hpk
          apply hnd.1
          have hpe : p.1 = k := beq_iff_eq.mp hpk
          rw [hk, ← hpe]
          exact List.mem_map_of_mem Prod.fst hp
        simp [List.filter_cons, List.find?_cons, hb, hrest]
      · have hb : (a.1 == k) = false := beq_eq_false_iff_ne.mpr hk
        simp [List.filter_cons, List.find?_cons, hb, ih hnd.2]

/-- A `flatMap` whose blocks are all singletons is a `map`. -/
theorem flatMap_eq_map_of_singleton {α β : Type} (l : List α) (f : α → List β)
    (g : α → β) (h : ∀ a ∈ l, f a = [g a]) : l.flatMap f = l.map g := by
  induction l with
  | nil => rfl
  | cons a rest ih =>
      rw [List.flatMap_cons, List.map_cons, h a (List.mem_cons_self a rest),
        ih (fun b hb => h b (List.mem_cons_of_mem a hb))]
      rfl

/-- Under duplicate-free source keys, the pandas left merge of
`add_samples` is a pointwise update of the well list. -/
theorem mergeLeft_eq_map (df : List Well) (records : List (String × Option String))
    (hnd : (records.map Prod.fst).Nodup) :
    mergeLeft df records =
      df.map (fun w =>
        match records.find? (fun p => p.1 == w.well_index) with
        | some p => fillMerged w p
        | Option.none => w) := by
  refine flatMap_eq_map_of_singleton df _ _ (fun w hw => ?_)
  rw [filter_key_eq_find records w.well_index hnd]
  cases hf : records.find? (fun p => p.1 == w.well_index) with
  | none => rfl
  | some p => rfl

/-- C2 counterexample: the claim describes the merge as a per-well update,
so on the one-well plate `A1` it entails a one-record result; a tabular
source with two rows for `A1` (both columns present, both values non-null)
makes the left merge duplicate the well record instead. -/
theorem C2_counterexample :
    ((add_samples (mkWells 1 1 Option.none Option.none)
        (SampleSource.dataframe
          (DataFrameSrc.mk ["well_index", "sample_id"]
            [("A1", some "X"), ("A1", some "Y")]))).df).length ≠ 1 := by decide

/-- C2 amended: for every plate and every tabular source that has both
required columns and at most one row per `well_index`, `add_samples`
raises nothing and performs a left join on `well_index`: a well whose
matching row carries a non-null `sample_id` gets that value (full
overwrite), a well whose matching row carries a null keeps its prior
`sample_id`, and a well with no matching row is untouched. -/
theorem C2_dataframe_left_join (df : List Well) (t : DataFrameSrc)
    (hcols : "well_index" ∈ t.columns ∧ "sample_id" ∈ t.columns)
    (hnd : (t.records.map Prod.fst).Nodup) :
    (add_samples df (SampleSource.dataframe t)).error = Option.none ∧
    (add_samples df (SampleSource.dataframe t)).df =
      df.map (fun w =>
        match t.records.find? (fun p => p.1 == w.well_index) with
        | some (_, some v) => { w with sample_id := some v }
        | some (_, Option.none) => w
        | Option.none => w) := by
  have hif : ¬("well_index" ∉ t.columns ∨ "sample_id" ∉ t.columns) := by
    push_neg
    exact ⟨hcols.1, hcols.2⟩
  simp only [add_samples]
  rw [if_neg hif]
  refine ⟨rfl, ?_⟩
  show mergeLeft df t.records = _
  rw [mergeLeft_eq_map df t.records hnd]
  refine List.map_congr_left (fun w hw => ?_)
  cases hf : t.records.find? (fun p => p.1 == w.well_index) with
  | none => rfl
  | some p =>
      rcases p with ⟨a, v⟩
      cases v <;> rfl

/-- C2 witness: the theorem applied to the two-well plate `A1, B1` and a
source holding a non-null value for `A1` and a null for `B1`. -/
theorem C2_dataframe_left_join_witness :
    (("well_index" ∈ (DataFrameSrc.mk ["well_index", "sample_id"]
          [("A1", some "S1"), ("B1", Option.none)]).columns ∧
      "sample_id" ∈ (DataFrameSrc.mk ["well_index", "sample_id"]
          [("A1", some "S1"), ("B1", Option.none)]).columns) ∧
     ((DataFrameSrc.mk ["well_index", "sample_id"]
          [("A1", some "S1"), ("B1", Option.none)]).records.map Prod.fst).Nodup ∧
     (add_samples (mkWells 2 1 Option.none Option.none)
        (SampleSource.dataframe (DataFrameSrc.mk ["well_index", "sample_id"]
          [("A1", some "S1"), ("B1", Option.none)]))).error = Option.none ∧
     (add_samples (mkWells 2 1 Option.none Option.none)
        (SampleSource.dataframe (DataFrameSrc.mk ["well_index", "sample_id"]
          [("A1", some "S1"), ("B1", Option.none)]))).df =
       (mkWells 2 1 Option.none Option.none).map (fun w =>
         match (DataFrameSrc.mk ["well_index", "sample_id"]
             [("A1", some "S1"), ("B1", Option.none)]).records.find?
               (fun p => p.1 == w.well_index) with
         | some (_, some v) => { w with sample_id := some v }
         | some (_, Option.none) => w
         | Option.none => w)) := by
  refine ⟨⟨by decide, by decide⟩, by decide, ?_, ?_⟩
  · exact (C2_dataframe_left_join (mkWells 2 1 Option.none Option.none)
      (DataFrameSrc.mk ["well_index", "sample_id"] [("A1", some "S1"), ("B1", Option.none)])
      ⟨by decide, by decide⟩ (by decide)).1
  · exact (C2_dataframe_left_join (mkWells 2 1 Option.none Option.none)
      (DataFrameSrc.mk ["well_index", "sample_id"] [("A1", some "S1"), ("B1", Option.none)])
      ⟨by decide, by decide⟩ (by decide)).2

end Microplate

namespace Microplate

/-- A pointwise update that can only change `sample_id` preserves the
record count, the `well_index` sequence, and every other field at every
position. -/
theorem map_keeps_all_but_sample (df : List Well) (f : Well → Well)
    (hf : ∀ w, { f w with sample_id := Option.none } = { w with sample_id := Option.none }) :
    (df.map f).length = df.length ∧
    (df.map f).map Well.well_index = df.map Well.well_index ∧
    ∀ i : Nat, ((df.map f)[i]?).map (fun w => { w with sample_id := Option.none }) =
      (df[i]?).map (fun w => { w with sample_id := Option.none }) := by
  refine ⟨by simp, ?_, ?_⟩
  · rw [List.map_map]
    refine List.map_congr_left (fun w hw => ?_)
    have h2 := congrArg Well.well_index (hf w)
    simpa using h2
  · intro i
    rw [List.getElem?_map, Option.map_map]
    cases h : df[i]? with
    | none => rfl
    | some w => simp [Function.comp, hf w]

/-- C4 counterexample: a tabular source with both required columns but two
rows for well `B1` is accepted by `add_samples`, yet the left merge turns
the two-well plate `A1, B1` into three records — the record count is not
preserved. -/
theorem C4_counterexample :
    ((add_samples (mkWells 2 1 Option.none Option.none)
        (SampleSource.dataframe
          (DataFrameSrc.mk ["well_index", "sample_id"]
            [("B1", some "Z"), ("B1", some "W")]))).df).length ≠
      (mkWells 2 1 Option.none Option.none).length := by decide

/-- C4 amended: for every source `add_samples` accepts without error —
absent, mapping, or tabular with the required columns and at most one row
per `well_index` (and also the warned-about invalid type) — the operation
preserves the number of well records, their `well_index` sequence, and
every field other than `sample_id` at every position. -/
theorem C4_preserves_count_and_order (df : List Well) (src : SampleSource)
    (hnd : ∀ t, src = SampleSource.dataframe t → (t.records.map Prod.fst).Nodup) :
    ((add_samples df src).df).length = df.length ∧
    ((add_samples df src).df).map Well.well_index = df.map Well.well_index ∧
    ∀ i : Nat,
      (((add_samples df src).df)[i]?).map (fun w => { w with sample_id := Option.none }) =
        (df[i]?).map (fun w => { w with sample_id := Option.none }) := by
  cases src with
  | pyNone => exact ⟨rfl, rfl, fun i => rfl⟩
  | other => exact ⟨rfl, rfl, fun i => rfl⟩
  | dict m =>
      refine map_keeps_all_but_sample df
        (fun w =>
          match m.lookup w.well_index with
          | some v => { w with sample_id := some v }
          | Option.none => w) (fun w => ?_)
      cases hl : m.lookup w.well_index with
      | none => simp [hl]
      | some v => simp [hl]
  | dataframe t =>
      by_cases hcols : "well_index" ∉ t.columns ∨ "sample_id" ∉ t.columns
      · have hres : add_samples df (SampleSource.dataframe t) =
            { df := df, printed := [],
              error := some "DataFrame must have 'well_index' and 'sample_id' columns." } := by
          simp only [add_samples]
          rw [if_pos hcols]
        rw [hres]
        exact ⟨rfl, rfl, fun i => rfl⟩
      · have hres : (add_samples df (SampleSource.dataframe t)).df =
            mergeLeft df t.records := by
          simp only [add_samples]
          rw [if_neg hcols]
        rw [hres, mergeLeft_eq_map df t.records (hnd t rfl)]
        refine map_keeps_all_but_sample df _ (fun w => ?_)
        cases hfind : t.records.find? (fun p => p.1 == w.well_index) with
        | none => simp [hfind]
        | some p =>
            rcases p with ⟨a, v⟩
            cases v with
            | none => simp [hfind, fillMerged]
            | some s => simp [hfind, fillMerged]

/-- C4 witness: the theorem applied to the two-well plate `A1, A2` and a
duplicate-free tabular source assigning `Q` to well `A1`. -/
theorem C4_preserves_count_and_order_witness :
    ((∀ t, SampleSource.dataframe
        (DataFrameSrc.mk ["well_index", "sample_id"] [("A1", some "Q")]) =
          SampleSource.dataframe t → (t.records.map Prod.fst).Nodup) ∧
     ((add_samples (mkWells 1 2 Option.none Option.none)
        (SampleSource.dataframe
          (DataFrameSrc.mk ["well_index", "sample_id"] [("A1", some "Q")]))).df).length =
       (mkWells 1 2 Option.none Option.none).length ∧
     ((add_samples (mkWells 1 2 Option.none Option.none)
        (SampleSource.dataframe
          (DataFrameSrc.mk ["well_index", "sample_id"] [("A1", some "Q")]))).df).map
           Well.well_index =
       (mkWells 1 2 Option.none Option.none).map Well.well_index ∧
     ∀ i : Nat,
       (((add_samples (mkWells 1 2 Option.none Option.none)
          (SampleSource.dataframe
            (DataFrameSrc.mk ["well_index", "sample_id"] [("A1", some "Q")]))).df)[i]?).map
             (fun w => { w with sample_id := Option.none }) =
         ((mkWells 1 2 Option.none Option.none)[i]?).map
           (fun w => { w with sample_id := Option.none })) := by
  refine ⟨fun t ht => ?_, ?_⟩
  · cases ht
    decide
  · exact C4_preserves_count_and_order (mkWells 1 2 Option.none Option.none)
      (SampleSource.dataframe
        (DataFrameSrc.mk ["well_index", "sample_id"] [("A1", some "Q")]))
      (fun t ht => by cases ht; decide)

end Microplate

namespace Microplate

/-- Every well built by the construction loops carries the constructor's
plate name and plate id: both columns are single replicated values. -/
theorem mkWells_plate_fields (rows cols : Nat) (pn pid : Option String) :
    ∀ w ∈ mkWells rows cols pn pid, w.plate_name = pn ∧ w.plate_id = pid := by
  intro w hw
  simp only [mkWells, List.mem_flatMap, List.mem_map, List.mem_range] at hw
  obtain ⟨c, hc, r, hr, rfl⟩ := hw
  exact ⟨rfl, rfl⟩

/-- No branch of `add_samples` writes to the `plate_name` or `plate_id`
columns: every record afterwards takes its plate fields from some prior
record. -/
theorem add_samples_plate_fields (df : List Well) (src : SampleSource) :
    ∀ w2 ∈ (add_samples df src).df, ∃ w ∈ df,
      w2.plate_name = w.plate_name ∧ w2.plate_id = w.plate_id := by
  intro w2 hw2
  cases src with
  | pyNone => exact ⟨w2, hw2, rfl, rfl⟩
  | other => exact ⟨w2, hw2, rfl, rfl⟩
  | dict m =>
      simp only [add_samples, applyDict, List.mem_map] at hw2
      obtain ⟨w, hw, hwe⟩ := hw2
      refine ⟨w, hw, ?_⟩
      subst hwe
      cases hl : m.lookup w.well_index <;> simp [hl]
  | dataframe t =>
      by_cases hcols : "well_index" ∉ t.columns ∨ "sample_id" ∉ t.columns
      · have hres : (add_samples df (SampleSource.dataframe t)).df = df := by
          simp only [add_samples]
          rw [if_pos hcols]
        rw [hres] at hw2
        exact ⟨w2, hw2, rfl, rfl⟩
      · have hres : (add_samples df (SampleSource.dataframe t)).df =
            mergeLeft df t.records := by
          simp only [add_samples]
          rw [if_neg hcols]
        rw [hres] at hw2
        simp only [mergeLeft, List.mem_flatMap] at hw2
        obtain ⟨w, hw, hmem⟩ := hw2
        refine ⟨w, hw, ?_⟩
        cases hfil : t.records.filter (fun p => p.1 == w.well_index) with
        | nil =>
            rw [hfil] at hmem
            simp at hmem
            subst hmem
            exact ⟨rfl, rfl⟩
        | cons x xs =>
            rw [hfil] at hmem
            simp only [List.mem_map] at hmem
            obtain ⟨p, hp, hpe⟩ := hmem
            subst hpe
            cases hp2 : p.2 <;> simp [fillMerged, hp2]

/-- A list all of whose members equal one value has at most one distinct
value. -/
theorem dedup_length_le_one {α : Type} [DecidableEq α] (l : List α) (a : α)
    (h : ∀ x ∈ l, x = a) : l.dedup.length ≤ 1 := by
  have hnd := List.nodup_dedup l
  have hmem : ∀ x ∈ l.dedup, x = a := fun x hx => h x (List.mem_dedup.mp hx)
  cases hd : l.dedup with
  | nil => simp
  | cons x tl =>
      cases tl with
      | nil => simp
      | cons y t2 =>
          exfalso
          rw [hd] at hnd hmem
          rw [List.nodup_cons] at hnd
          apply hnd.1
          have hx : x = a := hmem x (by simp)
          have hy : y = a := hmem y (by simp)
          rw [hx, ← hy]
          simp

/-- The only `ValueError` `add_samples` can raise is the missing-columns
one. -/
theorem add_samples_error_msg (df : List Well) (src : SampleSource) (e : String)
    (h : (add_samples df src).error = some e) :
    e = "DataFrame must have 'well_index' and 'sample_id' columns." := by
  cases src with
  | pyNone => simp [add_samples] at h
  | other => simp [add_samples] at h
  | dict m => simp [add_samples] at h
  | dataframe t =>
      by_cases hcols : "well_index" ∉ t.columns ∨ "sample_id" ∉ t.columns
      · have hres : (add_samples df (SampleSource.dataframe t)).error =
            some "DataFrame must have 'well_index' and 'sample_id' columns." := by
          simp only [add_samples]
          rw [if_pos hcols]
        rw [hres] at h
        injection h with h2
        exact h2.symm
      · have hres : (add_samples df (SampleSource.dataframe t)).error = Option.none := by
          simp only [add_samples]
          rw [if_neg hcols]
        rw [hres] at h
        cases h

/-- C10: the construction-time uniformity checks never fire — for every
geometry, plate name, plate id and sample source, `__post_init__` never
raises "Plate name must be consistent across all wells" nor "Plate ID
must be consistent across all wells", because both columns replicate a
single constructor argument and no earlier step alters them. -/
theorem C10_uniformity_check_unreachable (rows cols : Nat) (pn pid : Option String)
    (src : SampleSource) :
    post_init rows cols pn pid src ≠
        Except.error "Plate name must be consistent across all wells" ∧
    post_init rows cols pn pid src ≠
        Except.error "Plate ID must be consistent across all wells" := by
  have hfields : ∀ w2 ∈ (add_samples (mkWells rows cols pn pid) src).df,
      w2.plate_name = pn ∧ w2.plate_id = pid := by
    intro w2 hw2
    obtain ⟨w, hw, h1, h2⟩ := add_samples_plate_fields _ src w2 hw2
    obtain ⟨g1, g2⟩ := mkWells_plate_fields rows cols pn pid w hw
    exact ⟨h1.trans g1, h2.trans g2⟩
  have hname : ¬ 1 < (((add_samples (mkWells rows cols pn pid) src).df.map
      Well.plate_name).dedup).length := by
    have hle := dedup_length_le_one
      ((add_samples (mkWells rows cols pn pid) src).df.map Well.plate_name) pn (by
        intro x hx
        obtain ⟨w, hw, hwe⟩ := List.mem_map.mp hx
        rw [← hwe]
        exact (hfields w hw).1)
    omega
  have hid : ¬ 1 < (((add_samples (mkWells rows cols pn pid) src).df.map
      Well.plate_id).dedup).length := by
    have hle := dedup_length_le_one
      ((add_samples (mkWells rows cols pn pid) src).df.map Well.plate_id) pid (by
        intro x hx
        obtain ⟨w, hw, hwe⟩ := List.mem_map.mp hx
        rw [← hwe]
        exact (hfields w hw).2)
    omega
  simp only [post_init]
  cases herr : (add_samples (mkWells rows cols pn pid) src).error with
  | some e =>
      have he := add_samples_error_msg _ src e herr
      subst he
      constructor <;> intro hcontra <;> injection hcontra with hh
      · exact absurd hh (by decide)
      · exact absurd hh (by decide)
  | none =>
      simp only [validate_consistency]
      rw [if_neg hname, if_neg hid]
      constructor <;> intro hcontra <;> cases hcontra

end Microplate

namespace Microplate

/-- C1 (code bug): on the 8×12 plate with "X" assigned to well "A2", the
well record for A2 does hold "X", yet the rendered grid shows a dash at
display row A column 2 and shows "X" at display row A column 9:
`values.reshape(rows, cols)` reads the column-major record sequence in
row-major order instead of inverting the generation order, so row A of
the display holds wells A1, B1, ..., H1, A2, B2, C2, D2. -/
theorem C1_reshape_misplaces_wells :
    ((add_samples (mkWells 8 12 (some "P1") (some "ID1"))
        (SampleSource.dict [("A2", "X")])).df.filter
          (fun w => w.well_index == "A2")).map Well.sample_id = [some "X"] ∧
    (matrixRow ((add_samples (mkWells 8 12 (some "P1") (some "ID1"))
        (SampleSource.dict [("A2", "X")])).df.map Well.sample_id) 12 0)[1]? =
      some Option.none ∧
    (matrixRow ((add_samples (mkWells 8 12 (some "P1") (some "ID1"))
        (SampleSource.dict [("A2", "X")])).df.map Well.sample_id) 12 0)[8]? =
      some (some "X") ∧
    (print_matrix 8 12 (some "P1") (some "ID1")
        (add_samples (mkWells 8 12 (some "P1") (some "ID1"))
          (SampleSource.dict [("A2", "X")])).df)[3]? =
      some "A      -          -          -          -          -          -          -          -          X          -          -          -     " := by
  decide

end Microplate

namespace Microplate

/-- Centring a string that fits the field yields exactly the field
width. -/
theorem pyCenter_length (s : String) (w : Nat) (h : s.length ≤ w) :
    (pyCenter s w).length = w := by
  by_cases hw : w ≤ s.length
  · have hsw : s.length = w := le_antisymm h hw
    simp only [pyCenter]
    rw [if_pos hw, hsw]
  · simp only [pyCenter]
    rw [if_neg hw]
    rw [String.length_append, String.length_append]
    have h1 : (String.mk (List.replicate ((w - s.length) / 2) ' ')).length =
        (w - s.length) / 2 := by
      show (List.replicate ((w - s.length) / 2) ' ').length = (w - s.length) / 2
      exact List.length_replicate _ _
    have h2 : (String.mk (List.replicate (w - s.length - (w - s.length) / 2) ' ')).length =
        w - s.length - (w - s.length) / 2 := by
      show (List.replicate (w - s.length - (w - s.length) / 2) ' ').length =
        w - s.length - (w - s.length) / 2
      exact List.length_replicate _ _
    rw [h1, h2]
    have h3 := Nat.div_le_self (w - s.length) 2
    omega

/-- Joining fixed-width fields with single spaces has a length determined
by the field count. -/
theorem joinSep_length_fixed (l : List String) (h : ∀ x ∈ l, x.length = 10)
    (hne : l ≠ []) : (joinSep " " l).length = 11 * l.length - 1 := by
  induction l with
  | nil => cases hne rfl
  | cons s rest ih =>
      cases rest with
      | nil =>
          show s.length = 11 * [s].length - 1
          rw [h s (by simp)]
          rfl
      | cons t r2 =>
          have hstep : joinSep " " (s :: t :: r2) = s ++ " " ++ joinSep " " (t :: r2) := rfl
          rw [hstep, String.length_append, String.length_append]
          have hrec := ih (fun x hx => h x (List.mem_cons_of_mem s hx)) (by simp)
          rw [hrec, h s (by simp)]
          have hsp : (" " : String).length = 1 := rfl
          rw [hsp]
          have hpos : 1 ≤ (t :: r2).length := by simp
          simp only [List.length_cons] at hpos ⊢
          omega

/-- C9 counterexample: on a 1×1 plate whose single well holds the
11-character identifier "ABCDEFGHIJK", the data line of the rendered grid
is "A  ABCDEFGHIJK" of length 14, not the 13 (= 3 + one 10-character
field) the fixed-width claim prescribes — the format specifier `^10` is a
minimum width, not a fixed one. -/
theorem C9_counterexample :
    (((print_matrix 1 1 Option.none Option.none
        (add_samples (mkWells 1 1 Option.none Option.none)
          (SampleSource.dict [("A1", "ABCDEFGHIJK")])).df)[3]?).map String.length) =
      some 14 ∧
    (((print_matrix 1 1 Option.none Option.none
        (add_samples (mkWells 1 1 Option.none Option.none)
          (SampleSource.dict [("A1", "ABCDEFGHIJK")])).df)[3]?).map String.length) ≠
      some 13 := by decide

/-- C9 amended: whenever every assigned `sample_id` fits in 10 characters
(and the column numbers do, which holds for any plate up to 9999999999
columns), every grid line — the column-header line and each data line —
has the same length `11 * cols + 2`, i.e. uses fields of exactly 10
characters; an unset `sample_id` is rendered as the dash centred in the
10-character field.  Identifiers longer than 10 characters widen their
field to their own length instead. -/
theorem C9_fixed_width (rows cols : Nat) (pn pid : Option String) (df : List Well)
    (hc : 0 < cols) (hdf : df.length = rows * cols)
    (hnum : ∀ i, i < cols → (Nat.repr (i + 1)).length ≤ 10)
    (hsam : ∀ w ∈ df, ((w.sample_id).getD "").length ≤ 10) :
    (∀ line ∈ (print_matrix rows cols pn pid df).drop 2, line.length = 11 * cols + 2) ∧
    formatCell Option.none = pyCenter "-" 10 ∧
    (∀ s : String, s.length ≤ 10 → (formatCell (some s)).length = 10) := by
  refine ⟨?_, by decide, fun s hs => pyCenter_length s 10 hs⟩
  have hdrop : (print_matrix rows cols pn pid df).drop 2 =
      ("   " ++ joinSep " "
          ((List.range cols).map (fun i => pyCenter (Nat.repr (i + 1)) 10))) ::
        (List.range rows).map (fun i =>
          rowLetter i ++ "  " ++
            joinSep " " ((matrixRow (df.map Well.sample_id) cols i).map formatCell)) := rfl
  intro line hline
  rw [hdrop] at hline
  rcases List.mem_cons.mp hline with h | h
  · subst h
    have hfields : ∀ x ∈ (List.range cols).map (fun i => pyCenter (Nat.repr (i + 1)) 10),
        x.length = 10 := by
      intro x hx
      obtain ⟨i, hi, rfl⟩ := List.mem_map.mp hx
      exact pyCenter_length _ _ (hnum i (List.mem_range.mp hi))
    have hlen : ((List.range cols).map (fun i => pyCenter (Nat.repr (i + 1)) 10)).length =
        cols := by simp
    have hne : (List.range cols).map (fun i => pyCenter (Nat.repr (i + 1)) 10) ≠ [] := by
      intro hcon
      rw [hcon] at hlen
      simp at hlen
      omega
    have hj := joinSep_length_fixed _ hfields hne
    rw [hlen] at hj
    rw [String.length_append, hj]
    have h3 : ("   " : String).length = 3 := rfl
    rw [h3]
    omega
  · obtain ⟨i, hi, rfl⟩ := List.mem_map.mp h
    have hi2 : i < rows := List.mem_range.mp hi
    have hmul : i * cols + cols ≤ rows * cols := by
      have hm := Nat.mul_le_mul_right cols (show i + 1 ≤ rows by omega)
      rw [Nat.succ_mul] at hm
      exact hm
    have hcells : ((matrixRow (df.map Well.sample_id) cols i).map formatCell).length =
        cols := by
      simp only [List.length_map, matrixRow, List.length_take, List.length_drop,
        List.length_map, hdf]
      omega
    have hfields : ∀ x ∈ (matrixRow (df.map Well.sample_id) cols i).map formatCell,
        x.length = 10 := by
      intro x hx
      obtain ⟨y, hy, rfl⟩ := List.mem_map.mp hx
      have hyflat : y ∈ df.map Well.sample_id := by
        have h1 := (List.take_sublist cols
          ((df.map Well.sample_id).drop (i * cols))).subset hy
        exact (List.drop_sublist (i * cols) (df.map Well.sample_id)).subset h1
      obtain ⟨w, hw, hwe⟩ := List.mem_map.mp hyflat
      cases hys : y with
      | none => decide
      | some s =>
          refine pyCenter_length s 10 ?_
          have hgd := hsam w hw
          rw [hwe, hys] at hgd
          simpa using hgd
    have hne : (matrixRow (df.map Well.sample_id) cols i).map formatCell ≠ [] := by
      intro hcon
      rw [hcon] at hcells
      simp at hcells
      omega
    have hj := joinSep_length_fixed _ hfields hne
    rw [hcells] at hj
    rw [String.length_append, String.length_append, hj]
    have h1 : (rowLetter i).length = 1 := rfl
    have h2 : ("  " : String).length = 2 := rfl
    rw [h1, h2]
    omega

/-- C9 witness: the amended theorem applied to a 1×1 plate whose well
holds the 2-character identifier "S1". -/
theorem C9_fixed_width_witness :
    (0 < 1 ∧
     ((add_samples (mkWells 1 1 Option.none Option.none)
        (SampleSource.dict [("A1", "S1")])).df).length = 1 * 1 ∧
     (∀ i, i < 1 → (Nat.repr (i + 1)).length ≤ 10) ∧
     (∀ w ∈ (add_samples (mkWells 1 1 Option.none Option.none)
        (SampleSource.dict [("A1", "S1")])).df, ((w.sample_id).getD "").length ≤ 10)) ∧
    ((∀ line ∈ (print_matrix 1 1 Option.none Option.none
        (add_samples (mkWells 1 1 Option.none Option.none)
          (SampleSource.dict [("A1", "S1")])).df).drop 2,
        line.length = 11 * 1 + 2) ∧
     formatCell Option.none = pyCenter "-" 10 ∧
     (∀ s : String, s.length ≤ 10 → (formatCell (some s)).length = 10)) := by
  refine ⟨⟨by decide, by decide, by decide, by decide⟩, ?_⟩
  exact C9_fixed_width 1 1 Option.none Option.none
    (add_samples (mkWells 1 1 Option.none Option.none)
      (SampleSource.dict [("A1", "S1")])).df
    (by decide) (by decide) (by decide) (by decide)

end Microplate

namespace Microplate

/-- The decimal digit characters of `n`, most significant first: the
recursive reference form of core's fuel-based `Nat.toDigits 10`, used to
reason about `Nat.repr` (Python `str`). -/
def decimalChars (n : Nat) : List Char :=
  if h : n < 10 then [Nat.digitChar n]
  else decimalChars (n / 10) ++ [Nat.digitChar (n % 10)]
termination_by n
decreasing_by exact Nat.div_lt_self (by omega) (by omega)

/-- Digit characters are distinct for distinct digits. -/
theorem digitChar_inj_lt10 : ∀ a, a < 10 → ∀ b, b < 10 →
    Nat.digitChar a = Nat.digitChar b → a = b := by decide

/-- Unfolding `decimalChars` below ten. -/
theorem decimalChars_lt (n : Nat) (h : n < 10) :
    decimalChars n = [Nat.digitChar n] := by
  conv_lhs => rw [decimalChars]
  exact dif_pos h

/-- Unfolding `decimalChars` from ten up. -/
theorem decimalChars_ge (n : Nat) (h : ¬ n < 10) :
    decimalChars n = decimalChars (n / 10) ++ [Nat.digitChar (n % 10)] := by
  conv_lhs => rw [decimalChars]
  exact dif_neg h

/-- A decimal representation has at least one character. -/
theorem decimalChars_ne_nil (n : Nat) : decimalChars n ≠ [] := by
  by_cases h : n < 10
  · rw [decimalChars_lt n h]
    simp
  · rw [decimalChars_ge n h]
    simp

/-- Decimal representations are unique. -/
theorem decimalChars_injective : ∀ a b : Nat, decimalChars a = decimalChars b → a = b := by
  intro a
  induction a using Nat.strong_induction_on with
  | _ a ih =>
      intro b h
      by_cases ha : a < 10
      · by_cases hb : b < 10
        · rw [decimalChars_lt a ha, decimalChars_lt b hb] at h
          injection h with h1 h2
          exact digitChar_inj_lt10 a ha b hb h1
        · rw [decimalChars_lt a ha, decimalChars_ge b hb] at h
          have hlen := congrArg List.length h
          have hpos : 0 < (decimalChars (b / 10)).length :=
            List.length_pos.mpr (decimalChars_ne_nil _)
          rw [List.length_append] at hlen
          have h1 : ([Nat.digitChar a] : List Char).length = 1 := rfl
          have h2 : ([Nat.digitChar (b % 10)] : List Char).length = 1 := rfl
          rw [h1, h2] at hlen
          omega
      · by_cases hb : b < 10
        · rw [decimalChars_ge a ha, decimalChars_lt b hb] at h
          have hlen := congrArg List.length h
          have hpos : 0 < (decimalChars (a / 10)).length :=
            List.length_pos.mpr (decimalChars_ne_nil _)
          rw [List.length_append] at hlen
          have h1 : ([Nat.digitChar b] : List Char).length = 1 := rfl
          have h2 : ([Nat.digitChar (a % 10)] : List Char).length = 1 := rfl
          rw [h1, h2] at hlen
          omega
        · rw [decimalChars_ge a ha, decimalChars_ge b hb] at h
          obtain ⟨hdivs, hmods⟩ := List.append_inj' h rfl
          injection hmods with hm1 hm2
          have hmod : a % 10 = b % 10 :=
            digitChar_inj_lt10 (a % 10) (Nat.mod_lt a (by omega)) (b % 10)
              (Nat.mod_lt b (by omega)) hm1
          have hdiv : a / 10 = b / 10 :=
            ih (a / 10) (Nat.div_lt_self (by omega) (by omega)) (b / 10) hdivs
          have ha2 := Nat.div_add_mod a 10
          have hb2 := Nat.div_add_mod b 10
          omega

/-- Core's fuel-based digit printer agrees with `decimalChars` whenever
the fuel covers the digit count. -/
theorem toDigitsCore_eq_decimalChars :
    ∀ (fuel n : Nat) (acc : List Char), n < 10 ^ fuel → 0 < fuel →
      Nat.toDigitsCore 10 fuel n acc = decimalChars n ++ acc := by
  intro fuel
  induction fuel with
  | zero => intro n acc hlt hpos; omega
  | succ fuel ih =>
      intro n acc hlt hpos
      show (if n / 10 = 0 then Nat.digitChar (n % 10) :: acc
            else Nat.toDigitsCore 10 fuel (n / 10) (Nat.digitChar (n % 10) :: acc)) =
        decimalChars n ++ acc
      by_cases hdiv : n / 10 = 0
      · have hn : n < 10 := (Nat.div_eq_zero_iff (by omega)).mp hdiv
        rw [if_pos hdiv, decimalChars_lt n hn, Nat.mod_eq_of_lt hn]
        rfl
      · have hn : ¬ n < 10 := by
          intro hcon
          exact hdiv ((Nat.div_eq_zero_iff (by omega)).mpr hcon)
        rw [if_neg hdiv]
        have hfuel : 0 < fuel := by
          rcases Nat.eq_zero_or_pos fuel with h0 | h0
          · subst h0
            simp at hlt
            omega
          · exact h0
        have hquot : n / 10 < 10 ^ fuel := by
          rw [Nat.div_lt_iff_lt_mul (by omega)]
          calc n < 10 ^ (fuel + 1) := hlt
            _ = 10 ^ fuel * 10 := by ring
        rw [ih (n / 10) (Nat.digitChar (n % 10) :: acc) hquot hfuel]
        rw [decimalChars_ge n hn, List.append_assoc]
        rfl

/-- `Nat.repr` (Python `str` on a natural number) is the decimal-character
string. -/
theorem repr_eq_decimalChars (n : Nat) :
    Nat.repr n = String.mk (decimalChars n) := by
  show (Nat.toDigitsCore 10 (n + 1) n []).asString = String.mk (decimalChars n)
  have h1 : n < 10 ^ (n + 1) := by
    have h2 : n < 10 ^ n := Nat.lt_pow_self (by omega) n
    have h3 : (10 : Nat) ^ n ≤ 10 ^ (n + 1) := Nat.pow_le_pow_right (by omega) (by omega)
    omega
  rw [toDigitsCore_eq_decimalChars (n + 1) n [] h1 (by omega), List.append_nil]
  rfl

/-- Distinct numbers print distinctly. -/
theorem repr_injective (a b : Nat) (h : Nat.repr a = Nat.repr b) : a = b := by
  rw [repr_eq_decimalChars, repr_eq_decimalChars] at h
  injection h with hd
  exact decimalChars_injective a b hd

end Microplate

namespace Microplate

/-- Row letters are distinct within the single-letter alphabet. -/
theorem rowLetter_inj_lt26 : ∀ a, a < 26 → ∀ b, b < 26 →
    Char.ofNat (65 + a) = Char.ofNat (65 + b) → a = b := by decide

/-- Two generated well indexes agree only on the same (row, column)
pair, for single-letter row labels. -/
theorem well_index_inj (i1 j1 i2 j2 : Nat) (h1 : i1 < 26) (h2 : i2 < 26)
    (h : rowLetter i1 ++ Nat.repr (j1 + 1) = rowLetter i2 ++ Nat.repr (j2 + 1)) :
    i1 = i2 ∧ j1 = j2 := by
  have hdata := congrArg String.data h
  rw [String.data_append, String.data_append] at hdata
  have hdata2 : Char.ofNat (65 + i1) :: (Nat.repr (j1 + 1)).data =
      Char.ofNat (65 + i2) :: (Nat.repr (j2 + 1)).data := hdata
  injection hdata2 with hh ht
  refine ⟨rowLetter_inj_lt26 i1 h1 i2 h2 hh, ?_⟩
  have hr : Nat.repr (j1 + 1) = Nat.repr (j2 + 1) := String.ext ht
  have := repr_injective (j1 + 1) (j2 + 1) hr
  omega

/-- Summing a constant function over a list. -/
theorem sum_map_const_fn {α : Type} (l : List α) (f : α → Nat) (r : Nat)
    (h : ∀ x ∈ l, f x = r) : (l.map f).sum = l.length * r := by
  induction l with
  | nil => simp
  | cons a rest ih =>
      rw [List.map_cons, List.sum_cons, ih (fun x hx => h x (List.mem_cons_of_mem a hx)),
        h a (List.mem_cons_self a rest), List.length_cons]
      ring

/-- Position `j * r + i` of a flat sequence of `c` equal-length blocks is
position `i` of block `j`. -/
theorem getElem?_flatMap_blocks {α : Type} (g : Nat → List α) (r : Nat)
    (hg : ∀ x, (g x).length = r) :
    ∀ (c j i : Nat), j < c → i < r →
      ((List.range c).flatMap g)[j * r + i]? = (g j)[i]? := by
  intro c
  induction c with
  | zero => intro j i hj hi; omega
  | succ m ih =>
      intro j i hj hi
      rw [List.range_succ, List.flatMap_append]
      have hlen : ((List.range m).flatMap g).length = m * r := by
        rw [List.length_flatMap, sum_map_const_fn (List.range m) (List.length ∘ g) r
          (fun x hx => hg x), List.length_range]
      rcases Nat.lt_or_ge j m with hjm | hjm
      · have hlt : j * r + i < m * r := by
          have hm : (j + 1) * r ≤ m * r := Nat.mul_le_mul_right r (by omega)
          have hm2 : j * r + r ≤ m * r := by
            rw [Nat.succ_mul] at hm
            exact hm
          omega
        rw [List.getElem?_append, hlen, if_pos hlt]
        exact ih j i hjm hi
      · have hjeq : j = m := by omega
        subst hjeq
        have hge : ¬ j * r + i < j * r := by omega
        rw [List.getElem?_append, hlen, if_neg hge]
        have hsub : j * r + i - j * r = i := by omega
        rw [hsub]
        simp

/-- C5: for every positive geometry the construction produces exactly
`rows * cols` well records; the record at flat position `j * rows + i`
is the well of row `i` and 1-based column `j + 1` (column-major
generation: all rows of column 1, then all rows of column 2, ...), its
`well_index` being the row letter `chr(65 + i)` followed by the decimal
column number; and (for the single-letter domain `rows ≤ 26`) all
`well_index` values are distinct. -/
theorem C5_construction_grid (rows cols : Nat) (pn pid : Option String)
    (hr : 0 < rows) (hc : 0 < cols) :
    (mkWells rows cols pn pid).length = rows * cols ∧
    (∀ i j, i < rows → j < cols →
      (mkWells rows cols pn pid)[j * rows + i]? =
        some { plate_name := pn, plate_id := pid,
               well_index := rowLetter i ++ Nat.repr (j + 1),
               row := rowLetter i, column := j + 1, sample_id := Option.none }) ∧
    (rows ≤ 26 → ((mkWells rows cols pn pid).map Well.well_index).Nodup) := by
  have hg : ∀ x, ((List.range rows).map (fun r =>
      ({ plate_name := pn, plate_id := pid,
         well_index := rowLetter r ++ Nat.repr (x + 1),
         row := rowLetter r, column := x + 1, sample_id := Option.none } : Well))).length =
      rows := by
    intro x
    simp
  refine ⟨?_, ?_, ?_⟩
  · show ((List.range cols).flatMap _).length = rows * cols
    rw [List.length_flatMap, sum_map_const_fn (List.range cols)
      (List.length ∘ (fun c => (List.range rows).map (fun r =>
        ({ plate_name := pn, plate_id := pid,
           well_index := rowLetter r ++ Nat.repr (c + 1),
           row := rowLetter r, column := c + 1,
           sample_id := Option.none } : Well))))
      rows (fun x hx => hg x), List.length_range]
    ring
  · intro i j hi hj
    show ((List.range cols).flatMap _)[j * rows + i]? = _
    rw [getElem?_flatMap_blocks _ rows hg cols j i hj hi]
    rw [List.getElem?_map, List.getElem?_range hi]
    rfl
  · intro h26
    have hrw : (mkWells rows cols pn pid).map Well.well_index =
        (List.range cols).flatMap (fun c =>
          (List.range rows).map (fun i => rowLetter i ++ Nat.repr (c + 1))) := by
      simp only [mkWells, List.map_flatMap, List.map_map]
      rfl
    rw [hrw, List.nodup_flatMap]
    constructor
    · intro c hcmem
      refine List.Nodup.map_on ?_ (List.nodup_range rows)
      intro x hx y hy hxy
      exact (well_index_inj x c y c (lt_of_lt_of_le (List.mem_range.mp hx) h26)
        (lt_of_lt_of_le (List.mem_range.mp hy) h26) hxy).1
    · refine List.Pairwise.imp ?_ (List.nodup_range cols)
      intro c1 c2 hne x hx1 hx2
      obtain ⟨i1, hi1, he1⟩ := List.mem_map.mp hx1
      obtain ⟨i2, hi2, he2⟩ := List.mem_map.mp hx2
      have heq : rowLetter i1 ++ Nat.repr (c1 + 1) = rowLetter i2 ++ Nat.repr (c2 + 1) := by
        rw [he1, he2]
      have hinj := well_index_inj i1 c1 i2 c2
        (lt_of_lt_of_le (List.mem_range.mp hi1) h26)
        (lt_of_lt_of_le (List.mem_range.mp hi2) h26) heq
      exact hne hinj.2

/-- C5 witness: the theorem applied to the 2×3 plate. -/
theorem C5_construction_grid_witness :
    (0 < 2 ∧ 0 < 3) ∧
    ((mkWells 2 3 (some "P1") (some "ID1")).length = 2 * 3 ∧
    (∀ i j, i < 2 → j < 3 →
      (mkWells 2 3 (some "P1") (some "ID1"))[j * 2 + i]? =
        some { plate_name := some "P1", plate_id := some "ID1",
               well_index := rowLetter i ++ Nat.repr (j + 1),
               row := rowLetter i, column := j + 1, sample_id := Option.none }) ∧
    (2 ≤ 26 → ((mkWells 2 3 (some "P1") (some "ID1")).map Well.well_index).Nodup)) :=
  ⟨⟨by decide, by decide⟩,
    C5_construction_grid 2 3 (some "P1") (some "ID1") (by decide) (by decide)⟩

end Microplate
